import Mathlib

/-!
Shallow embedding of the core of `price_watcher.py` (class `PriceWatcher`):
the check cycle (`check_prices`), the extraction chain (`get_price`), the
price-text normalizer (`extract_price`) and the add operation (`add_item`).

Modelling conventions:
* Python floats are modelled as exact rationals (`Rat`); the claims under
  study are about which value is produced, not about IEEE rounding.
* External collaborators (the HTTP library, the headless browser, the URL
  parser, the clock) are oracles packaged in environment records; the
  embedded functions are pure functions of (environment, state).
* A Python `None` becomes `Option.none`; a raised-and-caught exception in a
  collaborator call is an explicit constructor of the oracle's result type.
* Timestamps are opaque `Nat`s handed out by the environment, one per cycle
  (the source calls `datetime.now()` afresh, but no claim distinguishes two
  timestamps inside one cycle).
-/

namespace PriceWatcher

/-- Prices, as exact numbers (Python `float` in the source). -/
abbrev Price := Rat

/-- One tracked item, i.e. one value of the `self.items` dict in
`price_watcher.py` (lines 117-123).  The `previous_url` key is absent until
redirect detection first writes it (line 184); we model absence as `none`. -/
structure Item where
  name : String
  url : String
  previous_url : Option String := none
  current_price : Option Price := none
  previous_price : Option Price := none
  last_checked : Option Nat := none
deriving Repr, DecidableEq

/-- Value carried by a change event: numeric for `price` events, string for
`url` events. -/
inductive Value where
  | num : Price → Value
  | str : String → Value
deriving Repr, DecidableEq

/-- One entry of the `changes` list built by `check_prices`
(lines 175-182 and 206-213). -/
structure ChangeEvent where
  name : String
  url : String
  change_type : String
  old_value : Value
  new_value : Value
  timestamp : Nat
deriving Repr, DecidableEq

/-- The redirect status codes tested at line 171:
`(301, 302, 303, 307, 308)`. -/
def redirectCodes : List Nat := [301, 302, 303, 307, 308]

/-- Environment of one check cycle.

* `head url`: outcome of `requests.head(url, allow_redirects=False, ...)`;
  `none` models a raised `requests.exceptions.RequestException`, and
  `some (status, loc)` a response with status code `status` and
  `headers.get('Location') = loc`.
* `price url`: the value returned by `self.get_price(url, name)` (which never
  raises from the caller's point of view: the observed claims treat it
  abstractly here; its own internals are embedded separately below).
* `now`: the cycle's timestamp.
* `notifyOk`: whether the SMTP send inside `send_notification` succeeds.
  `check_prices` discards `send_notification`'s boolean result (line 224),
  which is what makes this field unread by the cycle. -/
structure Env where
  head : String → Option (Nat × Option String)
  price : String → Option Price
  now : Nat
  notifyOk : Bool

/-- The redirect probe: lines 167-187 of `check_prices`.  On a redirect
status whose `Location` header is present and non-empty (Python's
`if new_url:` is falsy on both `None` and `""`), it records a `url` change
event and rewrites the item's `url`/`previous_url`; any other response, and a
raised transport error, leave the item untouched. -/
def probeStep (env : Env) (url : String) (item : Item) :
    Item × List ChangeEvent :=
  match env.head url with
  | some (status, loc) =>
      if status ∈ redirectCodes then
        match loc with
        | some newUrl =>
            if newUrl = "" then (item, [])
            else
              ({ item with previous_url := some url, url := newUrl },
               [{ name := item.name, url := url, change_type := "url",
                  old_value := Value.str url, new_value := Value.str newUrl,
                  timestamp := env.now }])
        | none => (item, [])
      else (item, [])
  | none => (item, [])

/-- The reconciliation step: lines 190-217 of `check_prices`.  Note that the
price oracle is consulted at `url`, the loop key of `self.items.items()`,
exactly as in `price = self.get_price(url, item["name"])` (line 190). -/
def priceStep (env : Env) (url : String) (item : Item) :
    Item × List ChangeEvent :=
  match env.price url with
  | some p =>
      let item1 := { item with last_checked := some env.now }
      match item.current_price with
      | none => ({ item1 with current_price := some p }, [])
      | some c =>
          if p ≠ c then
            ({ item1 with previous_price := some c, current_price := some p },
             [{ name := item.name, url := url, change_type := "price",
                old_value := Value.num c, new_value := Value.num p,
                timestamp := env.now }])
          else (item1, [])
  | none => (item, [])

/-- The body of the per-item loop of `check_prices` (lines 166-217): the
redirect probe, then the price reconciliation on the probed item. -/
def checkItem (env : Env) (url : String) (item : Item) :
    Item × List ChangeEvent :=
  ((priceStep env url (probeStep env url item).1).1,
   (probeStep env url item).2 ++ (priceStep env url (probeStep env url item).1).2)

/-- The `price`-kind events of a change list. -/
def priceEvents (evs : List ChangeEvent) : List ChangeEvent :=
  evs.filter (fun e => e.change_type == "price")

/-- The `url`-kind events of a change list. -/
def urlEvents (evs : List ChangeEvent) : List ChangeEvent :=
  evs.filter (fun e => e.change_type == "url")

/-- The full per-item loop of `check_prices` over the (insertion-ordered)
items dict, modelled as an association list; keys are never touched, values
are updated in place and change events accumulate in order. -/
def checkItems (env : Env) :
    List (String × Item) → List (String × Item) × List ChangeEvent
  | [] => ([], [])
  | (url, item) :: rest =>
      ((url, (checkItem env url item).1) :: (checkItems env rest).1,
       (checkItem env url item).2 ++ (checkItems env rest).2)

/-- Observable side effects of the tail of `check_prices` (lines 219-227):
a `save_data` call, and a `send_notification` call carrying the change
list. -/
inductive Op where
  | save : Op
  | notify : List ChangeEvent → Op
deriving Repr, DecidableEq

/-- Result of one whole check cycle: the updated items, the returned change
list, and the trace of persistence/notification effects in program order. -/
structure CycleResult where
  items : List (String × Item)
  changes : List ChangeEvent
  ops : List Op
deriving Repr, DecidableEq

/-- The whole of `check_prices` (lines 161-229).  `emailConfig` is whether
`self.email_config` is set.  Both branches of lines 220-227 call
`save_data`; the notification is attempted only in the non-empty branch and
only when an email configuration exists, after the save. -/
def check_prices (env : Env) (emailConfig : Bool)
    (items : List (String × Item)) : CycleResult :=
  if (checkItems env items).2 = [] then
    { items := (checkItems env items).1, changes := (checkItems env items).2,
      ops := [Op.save] }
  else
    { items := (checkItems env items).1, changes := (checkItems env items).2,
      ops := [Op.save] ++
        (if emailConfig then [Op.notify (checkItems env items).2] else []) }

/-! ### The price text normalizer: `extract_price` (lines 320-338)

The source removes all `','` and `'$'` characters and then takes the first
match of the Python regular expression `(\d+\.\d+|\d+)`, parsed with
`float`.  For that pattern, Python's leftmost-match semantics amount to:
at the first position holding a digit, take the maximal digit run; if it is
immediately followed by `'.'` and a further digit, append `'.'` and the
maximal digit run after the dot.  `findNumber` below implements exactly
that; the parsed value is kept as an exact rational. -/

/-- Removing every `','` and `'$'` character, as the two
`price_text.replace` calls at lines 325-326 do. -/
def stripChars (s : List Char) : List Char :=
  s.filter (fun c => decide (c ≠ ',' ∧ c ≠ '$'))

/-- Numeric value of a digit string, most significant digit first. -/
def digitsVal (ds : List Char) : Nat :=
  ds.foldl (fun n c => 10 * n + (c.toNat - 48)) 0

/-- Value of the number token with integer digits `int` and fractional
digits `frac` (empty `frac` for a plain integer match). -/
def numValue (int frac : List Char) : Price :=
  (digitsVal int : Price) + (digitsVal frac : Price) / (10 ^ frac.length : Price)

/-- The match of `\d+\.\d+|\d+` anchored at a position that holds a digit:
maximal integer digit run, then a fractional run when a dot plus at least
one digit follows. -/
def scanNumber (s : List Char) : List Char × List Char :=
  match s.dropWhile Char.isDigit with
  | c :: r2 =>
      if c = '.' then
        if r2.takeWhile Char.isDigit = [] then (s.takeWhile Char.isDigit, [])
        else (s.takeWhile Char.isDigit, r2.takeWhile Char.isDigit)
      else (s.takeWhile Char.isDigit, [])
  | [] => (s.takeWhile Char.isDigit, [])

/-- Leftmost match of `\d+\.\d+|\d+`: scan for the first digit, then match
there. -/
def findNumber : List Char → Option (List Char × List Char)
  | [] => none
  | c :: rest =>
      if c.isDigit then some (scanNumber (c :: rest)) else findNumber rest

/-- `extract_price` (lines 320-338): strip `','` and `'$'`, return the
value of the first number match, or `none` when no digit occurs.  The
source wraps the body in a catch-all returning `None`; the embedding is
total, so "never raises" holds by construction. -/
def extract_price (s : String) : Option Price :=
  match findNumber (stripChars s.data) with
  | some (int, frac) => some (numValue int frac)
  | none => none

/-! ### The extraction strategy chain: `get_price` (lines 231-278) -/

/-- Outcome of `requests.get(url, headers, timeout)` followed (on status
200) by `BeautifulSoup(response.text, 'html.parser')`:

* `raised`: the GET itself raised (any exception reaching the outer
  `except` at line 275 before a response was examined);
* `resp status parse`: a response with the given status code; `parse` is
  `none` when parsing the body raises (also landing in the outer
  `except`), and otherwise gives, per CSS selector, the stripped text of
  the first matching element (`soup.select_one(selector)`), `none` when no
  element matches. -/
inductive GetOutcome where
  | raised : GetOutcome
  | resp : Nat → Option (String → Option String) → GetOutcome

/-- Environment of one `get_price` call: the static fetch collaborator and
the rendered-page fallback `get_price_with_selenium`, taken as an oracle
(its own body is not part of this development). -/
structure FetchEnv where
  get : String → GetOutcome
  selenium : String → Option Price

/-- The selector priority list of lines 249-257. -/
def selectors : List String :=
  ["[itemprop=\"price\"]",
   ".price-characteristic",
   "[data-automation-id=\"price-value\"]",
   ".prod-PriceSection [aria-hidden=\"false\"]",
   "span.price-group",
   "[data-testid=\"price-wrap\"] span.inline-flex span.primary"]

/-- Python's `str.strip()` (used on the element text at line 262):
surrounding whitespace removed from both ends. -/
def pythonStrip (s : String) : String :=
  ⟨((s.data.dropWhile Char.isWhitespace).reverse.dropWhile
      Char.isWhitespace).reverse⟩

/-- The selector loop of lines 259-268: first selector whose matched
element's text normalizes to a number wins; a matched element whose text
does not normalize falls through to the next selector. -/
def tryStrategies (doc : String → Option String) :
    List String → Option Price
  | [] => none
  | sel :: rest =>
      match doc sel with
      | some txt =>
          match extract_price (pythonStrip txt) with
          | some p => some p
          | none => tryStrategies doc rest
      | none => tryStrategies doc rest

/-- `get_price` (lines 231-278).  The boolean records whether
`get_price_with_selenium` was invoked.  Paths:

* GET raises → outer `except` → selenium fallback (line 278);
* status 200, body parses, some selector yields a number → that number,
  no fallback (line 268);
* status 200, selectors exhausted → selenium fallback (line 271);
* status 200, parsing raises → outer `except` → selenium fallback;
* any other status → log and `return None` (line 274), no fallback. -/
def get_price (env : FetchEnv) (url : String) : Option Price × Bool :=
  match env.get url with
  | GetOutcome.raised => (env.selenium url, true)
  | GetOutcome.resp status parse =>
      if status = 200 then
        match parse with
        | some doc =>
            match tryStrategies doc selectors with
            | some p => (some p, false)
            | none => (env.selenium url, true)
        | none => (env.selenium url, true)
      else (none, false)

/-! ### The add operation: `add_item` (lines 105-129) -/

/-- Lookup in the items dict (keys are unique). -/
def findItem (items : List (String × Item)) (url : String) : Option Item :=
  match items with
  | [] => none
  | (k, v) :: rest => if k = url then some v else findItem rest url

/-- `add_item` (lines 105-129).  `validUrl` stands for the
`urlparse`-based check of line 108 (`scheme` and `netloc` both present) and
`netloc` for `urlparse(url).netloc`; both are external collaborators.  A
malformed URL and an already-tracked URL each return `False` with the items
untouched; otherwise the new item is appended with `None` price fields
(Python's `if not name:` treats the empty string like `None`). -/
def add_item (validUrl : String → Bool) (netloc : String → String)
    (items : List (String × Item)) (url : String) (name : Option String) :
    Bool × List (String × Item) :=
  if validUrl url = false then (false, items)
  else if findItem items url = none then
    let nm :=
      match name with
      | some n => if n = "" then "Item from " ++ netloc url else n
      | none => "Item from " ++ netloc url
    (true, items ++ [(url, { name := nm, url := url })])
  else (false, items)

/-! ### Auxiliary definitions for the statements -/

/-- The probe of `env` at `url` detects a redirect: a redirect status code
together with a non-empty `Location` header. -/
def detectsRedirect (env : Env) (url : String) : Prop :=
  ∃ status loc, env.head url = some (status, some loc) ∧
    status ∈ redirectCodes ∧ loc ≠ ""

/-- Modelled from the spec: the control-flow sentence "then the Extraction
Strategy Chain runs against the (possibly updated) URL".  This variant of
`checkItem` differs from the source only in consulting the price oracle at
the post-probe `url` field instead of the loop key; it exists to be compared
against `checkItem`, whose source (line 190) passes the loop key. -/
def checkItemSpecUrl (env : Env) (url : String) (item : Item) :
    Item × List ChangeEvent :=
  ((priceStep env (probeStep env url item).1.url (probeStep env url item).1).1,
   (probeStep env url item).2 ++
     (priceStep env (probeStep env url item).1.url (probeStep env url item).1).2)

/-- The raw text of the regex match with integer digits `int` and (possibly
empty) fractional digits `frac`. -/
def numToken (int frac : List Char) : List Char :=
  int ++ (if frac = [] then [] else '.' :: frac)

/-! ### Concrete inputs used in counterexamples and witnesses -/

/-- An item seeded with a known current price. -/
def itemSeed : Item :=
  { name := "Test Product", url := "https://example.com/product",
    current_price := some 100 }

/-- Cycle in which the probe raises and extraction observes a drop to 80. -/
def envDrop : Env :=
  { head := fun _ => none, price := fun _ => some 80, now := 5,
    notifyOk := true }

/-- Cycle in which the probe sees a 301 with a `Location` and extraction
re-observes the seeded price. -/
def envRedirect : Env :=
  { head := fun _ => some (301, some "https://example.com/new"),
    price := fun _ => some 100, now := 5, notifyOk := true }

/-- Cycle in which the probe sees a 200 and extraction is unresolved. -/
def envNoPrice : Env :=
  { head := fun _ => some (200, none), price := fun _ => none, now := 5,
    notifyOk := true }

/-- Cycle in which the probe sees a 302 with a `Location` and extraction is
unresolved. -/
def envRedirectNoPrice : Env :=
  { head := fun _ => some (302, some "https://example.com/new"),
    price := fun _ => none, now := 7, notifyOk := true }

/-- Cycle whose price oracle answers 50 at the tracked key URL and 999 at
the redirect target, separating the two possible extraction targets. -/
def envSplitPrices : Env :=
  { head := fun u => if u = "https://a.example/p"
      then some (301, some "https://b.example/p") else none,
    price := fun u => if u = "https://a.example/p" then some 50 else some 999,
    now := 1, notifyOk := true }

/-- An item tracked under the key URL of `envSplitPrices`. -/
def itemSplit : Item :=
  { name := "Split", url := "https://a.example/p", current_price := some 10 }

/-- A static fetch that answers 404 (no exception raised). -/
def fetchEnv404 : FetchEnv :=
  { get := fun _ => GetOutcome.resp 404 none,
    selenium := fun _ => some 5 }

/-- A parsed 200 page whose first selector matches an element reading
`$19.99`. -/
def docFirstSel : String → Option String :=
  fun sel => if sel = "[itemprop=\"price\"]" then some " $19.99 " else none

/-- A static fetch that returns the `docFirstSel` page. -/
def fetchEnvOk : FetchEnv :=
  { get := fun _ => GetOutcome.resp 200 (some docFirstSel),
    selenium := fun _ => some 3 }

/-- A static fetch that raises a transport error. -/
def fetchEnvRaised : FetchEnv :=
  { get := fun _ => GetOutcome.raised,
    selenium := fun _ => some 3 }

/-! ## Helper lemmas -/

/-- The redirect probe never touches the price fields or the name, and every
event it emits is `url`-kind. -/
theorem probeStep_preserve (env : Env) (url : String) (item : Item) :
    (probeStep env url item).1.name = item.name ∧
    (probeStep env url item).1.current_price = item.current_price ∧
    (probeStep env url item).1.previous_price = item.previous_price ∧
    (probeStep env url item).1.last_checked = item.last_checked ∧
    priceEvents (probeStep env url item).2 = [] := by
  unfold probeStep
  cases h : env.head url with
  | none => exact ⟨rfl, rfl, rfl, rfl, rfl⟩
  | some sl =>
      obtain ⟨status, loc⟩ := sl
      by_cases hs : status ∈ redirectCodes
      · cases loc with
        | none => simp [hs, priceEvents]
        | some l => by_cases hl : l = "" <;> simp [hs, hl, priceEvents]
      · simp [hs, priceEvents]

/-- The reconciliation step never touches the url fields or the name, and
every event it emits is `price`-kind. -/
theorem priceStep_preserve (env : Env) (url : String) (item : Item) :
    (priceStep env url item).1.name = item.name ∧
    (priceStep env url item).1.url = item.url ∧
    (priceStep env url item).1.previous_url = item.previous_url ∧
    urlEvents (priceStep env url item).2 = [] := by
  unfold priceStep
  cases hp : env.price url with
  | none => exact ⟨rfl, rfl, rfl, rfl⟩
  | some p =>
      cases hc : item.current_price with
      | none => simp [urlEvents]
      | some c => by_cases h : p = c <;> simp [h, urlEvents]

theorem priceEvents_append (a b : List ChangeEvent) :
    priceEvents (a ++ b) = priceEvents a ++ priceEvents b := by
  simp [priceEvents]

theorem urlEvents_append (a b : List ChangeEvent) :
    urlEvents (a ++ b) = urlEvents a ++ urlEvents b := by
  simp [urlEvents]

/-- Unresolved extraction: the reconciliation step is the identity. -/
theorem priceStep_none (env : Env) (url : String) (item : Item)
    (h : env.price url = none) : priceStep env url item = (item, []) := by
  simp [priceStep, h]

/-- Equal observation: only `last_checked` is stamped; no event. -/
theorem priceStep_same (env : Env) (url : String) (item : Item) (c : Price)
    (hc : item.current_price = some c) (h : env.price url = some c) :
    priceStep env url item =
      ({ item with last_checked := some env.now }, []) := by
  simp [priceStep, h, hc]

/-- Strictly different observation: the shift and exactly one event. -/
theorem priceStep_change (env : Env) (url : String) (item : Item)
    (c p : Price) (hc : item.current_price = some c)
    (h : env.price url = some p) (hne : p ≠ c) :
    priceStep env url item =
      ({ item with
           last_checked := some env.now,
           previous_price := some c,
           current_price := some p },
       [{ name := item.name, url := url, change_type := "price",
          old_value := Value.num c, new_value := Value.num p,
          timestamp := env.now }]) := by
  simp [priceStep, h, hc, hne]

/-- When the probe detects no redirect (non-redirect status, missing or
empty `Location`, or a raised transport error), it is the identity. -/
theorem probeStep_no_redirect (env : Env) (url : String) (item : Item)
    (hnr : ¬detectsRedirect env url) : probeStep env url item = (item, []) := by
  unfold probeStep
  cases hh : env.head url with
  | none => rfl
  | some sl =>
      obtain ⟨status, loc⟩ := sl
      by_cases hs : status ∈ redirectCodes
      · cases loc with
        | none => simp [hs]
        | some l =>
            by_cases hl : l = ""
            · simp [hs, hl]
            · exact absurd ⟨status, l, hh, hs, hl⟩ hnr
      · simp [hs]

/-! ## Claims -/

/-- C1: for an item whose `current_price` is set, a cycle in which
extraction resolves a strictly different price `p` shifts the old
`current_price` into `previous_price`, sets `current_price` to `p`, stamps
`last_checked`, and emits exactly one `price`-kind event whose `old_value`
is the prior `current_price` and whose `new_value` is `p`. -/
theorem checkItem_price_change_event (env : Env) (url : String) (item : Item)
    (c p : Price) (hc : item.current_price = some c)
    (hp : env.price url = some p) (hne : p ≠ c) :
    (checkItem env url item).1.previous_price = some c ∧
    (checkItem env url item).1.current_price = some p ∧
    (checkItem env url item).1.last_checked = some env.now ∧
    priceEvents (checkItem env url item).2 =
      [{ name := item.name, url := url, change_type := "price",
         old_value := Value.num c, new_value := Value.num p,
         timestamp := env.now }] := by
  obtain ⟨hn, hcp, _, _, hpe⟩ := probeStep_preserve env url item
  have hstep : priceStep env url (probeStep env url item).1 =
      ({ (probeStep env url item).1 with
           last_checked := some env.now,
           previous_price := some c,
           current_price := some p },
       [{ name := (probeStep env url item).1.name, url := url,
          change_type := "price", old_value := Value.num c,
          new_value := Value.num p, timestamp := env.now }]) := by
    rw [hc] at hcp
    simp [priceStep, hp, hcp, hne]
  have hpe' : ∀ a ∈ (probeStep env url item).2, ¬a.change_type = "price" := by
    simpa [priceEvents] using hpe
  refine ⟨?_, ?_, ?_, ?_⟩ <;>
    (simp [checkItem, hstep, priceEvents_append, hn, priceEvents];
      try exact hpe')

/-- Closed instance of C1: the seeded item at price 100 observed at 80. -/
theorem checkItem_price_change_event_witness :
    (checkItem envDrop "https://example.com/product" itemSeed).1.previous_price
        = some 100 ∧
    (checkItem envDrop "https://example.com/product" itemSeed).1.current_price
        = some 80 ∧
    (checkItem envDrop "https://example.com/product" itemSeed).1.last_checked
        = some 5 ∧
    priceEvents (checkItem envDrop "https://example.com/product" itemSeed).2 =
      [{ name := "Test Product", url := "https://example.com/product",
         change_type := "price", old_value := Value.num 100,
         new_value := Value.num 80, timestamp := 5 }] :=
  checkItem_price_change_event envDrop "https://example.com/product" itemSeed
    100 80 rfl rfl (by norm_num)

/-- C4: a redirect-status HEAD response with a non-empty `Location` yields
exactly one `url`-kind event and rewrites `url`/`previous_url`; a 200
response never yields a `url` event; a raised transport error is non-fatal
and the item proceeds straight to price extraction. -/
theorem checkItem_redirect_probe (env : Env) (url : String) (item : Item) :
    (∀ status loc, env.head url = some (status, some loc) →
      status ∈ redirectCodes → loc ≠ "" →
      urlEvents (checkItem env url item).2 =
        [{ name := item.name, url := url, change_type := "url",
           old_value := Value.str url, new_value := Value.str loc,
           timestamp := env.now }] ∧
      (checkItem env url item).1.previous_url = some url ∧
      (checkItem env url item).1.url = loc) ∧
    (∀ loc, env.head url = some (200, loc) →
      urlEvents (checkItem env url item).2 = []) ∧
    (env.head url = none → checkItem env url item = priceStep env url item) := by
  refine ⟨?_, ?_, ?_⟩
  · intro status loc h hs hl
    have hprobe : probeStep env url item =
        ({ item with previous_url := some url, url := loc },
         [{ name := item.name, url := url, change_type := "url",
            old_value := Value.str url, new_value := Value.str loc,
            timestamp := env.now }]) := by
      simp [probeStep, h, hs, hl]
    obtain ⟨-, hu2, hu3, hu4⟩ :=
      priceStep_preserve env url ({ item with previous_url := some url, url := loc })
    have hu4' : ∀ a ∈ (priceStep env url
        ({ item with previous_url := some url, url := loc })).2,
        ¬a.change_type = "url" := by
      simpa [urlEvents] using hu4
    refine ⟨?_, ?_, ?_⟩ <;>
      (simp [checkItem, hprobe, urlEvents_append, urlEvents, hu2, hu3];
        try exact hu4')
  · intro loc h
    have h200 : (200 : Nat) ∉ redirectCodes := by decide
    have hprobe : probeStep env url item = (item, []) := by
      simp [probeStep, h, h200]
    obtain ⟨-, -, -, hu4⟩ := priceStep_preserve env url item
    simpa [checkItem, hprobe] using hu4
  · intro h
    have hprobe : probeStep env url item = (item, []) := by
      simp [probeStep, h]
    simp [checkItem, hprobe]

/-- Closed instance of C4: a 301 with a `Location` on the seeded item. -/
theorem checkItem_redirect_probe_witness :
    urlEvents (checkItem envRedirect "https://example.com/product" itemSeed).2 =
      [{ name := "Test Product", url := "https://example.com/product",
         change_type := "url",
         old_value := Value.str "https://example.com/product",
         new_value := Value.str "https://example.com/new",
         timestamp := 5 }] ∧
    (checkItem envRedirect "https://example.com/product" itemSeed).1.previous_url
        = some "https://example.com/product" ∧
    (checkItem envRedirect "https://example.com/product" itemSeed).1.url
        = "https://example.com/new" :=
  (checkItem_redirect_probe envRedirect "https://example.com/product"
    itemSeed).1 301 "https://example.com/new" rfl (by decide) (by decide)

/-- C6 (amended): with extraction unresolved, the price fields are left
unchanged and no `price`-kind event is emitted; when moreover the probe
detected no redirect, the item is entirely unchanged and no event at all is
emitted.  (The claim's unqualified "no change event" fails: the independent
redirect probe can still emit a `url` event in the same cycle, see the
counterexample.) -/
theorem checkItem_unresolved_frame (env : Env) (url : String) (item : Item)
    (h : env.price url = none) :
    (checkItem env url item).1.current_price = item.current_price ∧
    (checkItem env url item).1.previous_price = item.previous_price ∧
    (checkItem env url item).1.last_checked = item.last_checked ∧
    priceEvents (checkItem env url item).2 = [] ∧
    (¬detectsRedirect env url → checkItem env url item = (item, [])) := by
  obtain ⟨hn, hcp, hpp, hlc, hpe⟩ := probeStep_preserve env url item
  have hpe' : ∀ a ∈ (probeStep env url item).2, ¬a.change_type = "price" := by
    simpa [priceEvents] using hpe
  refine ⟨?_, ?_, ?_, ?_, ?_⟩
  · simpa [checkItem, priceStep_none env url _ h] using hcp
  · simpa [checkItem, priceStep_none env url _ h] using hpp
  · simpa [checkItem, priceStep_none env url _ h] using hlc
  · simp [checkItem, priceStep_none env url _ h, priceEvents]
    exact hpe'
  · intro hnr
    simp [checkItem, probeStep_no_redirect env url item hnr,
      priceStep_none env url _ h]

/-- Counterexample to C6 as stated: extraction is unresolved, yet the
redirect probe emits a `url`-kind change event for the item in the same
cycle, so the cycle's event list for the item is not empty. -/
theorem checkItem_unresolved_event_cex :
    envRedirectNoPrice.price "https://example.com/product" = none ∧
    (checkItem envRedirectNoPrice "https://example.com/product" itemSeed).2 =
      [{ name := "Test Product", url := "https://example.com/product",
         change_type := "url",
         old_value := Value.str "https://example.com/product",
         new_value := Value.str "https://example.com/new",
         timestamp := 7 }] ∧
    (checkItem envRedirectNoPrice "https://example.com/product" itemSeed).2
        ≠ [] := by
  refine ⟨rfl, rfl, ?_⟩
  decide

/-- Closed instance of the amended C6: a 200 probe and unresolved
extraction leave the seeded item untouched with zero events. -/
theorem checkItem_unresolved_frame_witness :
    (checkItem envNoPrice "https://example.com/product" itemSeed).1.current_price
        = some 100 ∧
    (checkItem envNoPrice "https://example.com/product" itemSeed).1.previous_price
        = none ∧
    (checkItem envNoPrice "https://example.com/product" itemSeed).1.last_checked
        = none ∧
    priceEvents (checkItem envNoPrice "https://example.com/product" itemSeed).2
        = [] ∧
    checkItem envNoPrice "https://example.com/product" itemSeed
        = (itemSeed, []) := by
  obtain ⟨h1, h2, h3, h4, h5⟩ :=
    checkItem_unresolved_frame envNoPrice "https://example.com/product"
      itemSeed rfl
  refine ⟨h1, h2, h3, h4, h5 ?_⟩
  rintro ⟨s, l, hh, -, -⟩
  simp [envNoPrice] at hh

/-- C8: once `current_price` is set to `c`, a cycle either leaves it (and
`previous_price`) unchanged, or a strictly different price `p` was observed
and `current_price` becomes `p` with `previous_price` recording exactly the
prior value `c`; observing the same value `c` never overwrites. -/
theorem checkItem_current_price_invariant (env : Env) (url : String)
    (item : Item) (c : Price) (hc : item.current_price = some c) :
    (((checkItem env url item).1.current_price = some c ∧
      (checkItem env url item).1.previous_price = item.previous_price) ∨
     (∃ p, env.price url = some p ∧ p ≠ c ∧
       (checkItem env url item).1.current_price = some p ∧
       (checkItem env url item).1.previous_price = some c)) ∧
    (env.price url = some c →
      (checkItem env url item).1.current_price = some c ∧
      (checkItem env url item).1.previous_price = item.previous_price) := by
  obtain ⟨hn, hcp, hpp, hlc, hpe⟩ := probeStep_preserve env url item
  rw [hc] at hcp
  constructor
  · cases hp : env.price url with
    | none =>
        left
        constructor
        · simpa [checkItem, priceStep_none env url _ hp] using hcp
        · simpa [checkItem, priceStep_none env url _ hp] using hpp
    | some p =>
        by_cases hpc : p = c
        · subst hpc
          left
          constructor
          · simpa [checkItem, priceStep_same env url _ p hcp hp] using hcp
          · simpa [checkItem, priceStep_same env url _ p hcp hp] using hpp
        · right
          refine ⟨p, rfl, hpc, ?_, ?_⟩ <;>
            simp [checkItem, priceStep_change env url _ c p hcp hp hpc]
  · intro hp
    constructor
    · simpa [checkItem, priceStep_same env url _ c hcp hp] using hcp
    · simpa [checkItem, priceStep_same env url _ c hcp hp] using hpp

/-- Closed instance of C8: price 100 re-observed at 100 leaves the fields
unchanged; observed at 80 it is overwritten with `previous_price = 100`. -/
theorem checkItem_current_price_invariant_witness :
    ((checkItem envDrop "https://example.com/product" itemSeed).1.current_price
          = some 100 ∧
        (checkItem envDrop "https://example.com/product" itemSeed).1.previous_price
          = none) ∨
    (∃ p, envDrop.price "https://example.com/product" = some p ∧ p ≠ 100 ∧
      (checkItem envDrop "https://example.com/product" itemSeed).1.current_price
          = some p ∧
      (checkItem envDrop "https://example.com/product" itemSeed).1.previous_price
          = some 100) :=
  (checkItem_current_price_invariant envDrop "https://example.com/product"
    itemSeed 100 rfl).1

/-- C3 (amended): within a cycle, the price extraction for an item is
performed against the loop-key URL — the pre-redirect URL — regardless of
any redirect the probe just recorded: the cycle's outcome depends on the
price oracle only through its value at the key URL. -/
theorem checkItem_extraction_uses_key_url (env env' : Env) (url : String)
    (item : Item) (hh : env'.head = env.head) (hn : env'.now = env.now)
    (hp : env'.price url = env.price url) :
    checkItem env' url item = checkItem env url item := by
  have h1 : probeStep env' url item = probeStep env url item := by
    unfold probeStep
    rw [hh, hn]
  have h2 : ∀ i : Item, priceStep env' url i = priceStep env url i := by
    intro i
    unfold priceStep
    rw [hp, hn]
  unfold checkItem
  rw [h1, h2]

/-- Closed instance of the amended C3: changing the price oracle at the
redirect target (999 ↦ 42) while keeping it at the key URL does not change
the cycle's outcome for the item. -/
theorem checkItem_extraction_uses_key_url_witness :
    checkItem
        { envSplitPrices with
            price := fun u => if u = "https://a.example/p" then some 50 else some 42 }
        "https://a.example/p" itemSplit =
      checkItem envSplitPrices "https://a.example/p" itemSplit :=
  checkItem_extraction_uses_key_url
    { envSplitPrices with
        price := fun u => if u = "https://a.example/p" then some 50 else some 42 }
    envSplitPrices "https://a.example/p" itemSplit rfl rfl rfl

/-- Counterexample to C3 as stated: the probe rewrites the item's `url` to
the redirect target, whose price is 999, yet extraction returns the old
URL's price 50; the spec-modelled variant that extracts against the updated
URL returns 999 instead. -/
theorem checkItem_redirect_stale_url_cex :
    (checkItem envSplitPrices "https://a.example/p" itemSplit).1.url
        = "https://b.example/p" ∧
    (checkItem envSplitPrices "https://a.example/p" itemSplit).1.current_price
        = some 50 ∧
    (checkItemSpecUrl envSplitPrices "https://a.example/p" itemSplit).1.current_price
        = some 999 ∧
    (50 : Price) ≠ 999 := by
  refine ⟨rfl, rfl, rfl, ?_⟩
  decide

/-- C7: per cycle, the effect trace is exactly one `save`, followed by at
most one `notify` — present only when the change list is non-empty (and an
email configuration exists) and carrying exactly that list; the cycle's
outcome is independent of whether the SMTP send succeeds
(`send_notification`'s boolean result is discarded at line 224). -/
theorem check_prices_notification_discipline (env : Env) (cfg : Bool)
    (items : List (String × Item)) (b : Bool) :
    (check_prices env cfg items).ops =
      (if cfg = true ∧ (check_prices env cfg items).changes ≠ [] then
        [Op.save, Op.notify (check_prices env cfg items).changes]
      else [Op.save]) ∧
    check_prices { env with notifyOk := b } cfg items =
      check_prices env cfg items := by
  have hitems : checkItems { env with notifyOk := b } items =
      checkItems env items := by
    induction items with
    | nil => rfl
    | cons hd tl ih =>
        obtain ⟨url, item⟩ := hd
        simp only [checkItems, ih]
        rfl
  have hsame : check_prices { env with notifyOk := b } cfg items =
      check_prices env cfg items := by
    unfold check_prices
    rw [hitems]
  refine ⟨?_, hsame⟩
  by_cases h : (checkItems env items).2 = []
  · simp [check_prices, h]
  · cases cfg with
    | false => simp [check_prices, h]
    | true => simp [check_prices, h]

/-- C10: adding a URL that is already a key of the tracked set returns
`False` and leaves the tracked set entirely unchanged. -/
theorem add_item_existing_unchanged (validUrl : String → Bool)
    (netloc : String → String) (items : List (String × Item)) (url : String)
    (name : Option String) (h : findItem items url ≠ none) :
    add_item validUrl netloc items url name = (false, items) := by
  unfold add_item
  cases validUrl url with
  | false => simp
  | true => simp [h]

/-- Closed instance of C10: re-adding the seeded item's URL fails and
changes nothing. -/
theorem add_item_existing_unchanged_witness :
    add_item (fun _ => true) (fun _ => "example.com")
        [("https://example.com/product", itemSeed)]
        "https://example.com/product" (some "Another Name") =
      (false, [("https://example.com/product", itemSeed)]) :=
  add_item_existing_unchanged (fun _ => true) (fun _ => "example.com")
    [("https://example.com/product", itemSeed)]
    "https://example.com/product" (some "Another Name") (by decide)

/-- Counterexample to C2 as stated: a 404 response is a failed static
fetch, yet `get_price` returns `None` without invoking the rendered-page
fallback (lines 272-274 return before any selenium call). -/
theorem get_price_non200_cex :
    fetchEnv404.get "https://example.com/p" = GetOutcome.resp 404 none ∧
    get_price fetchEnv404 "https://example.com/p" = (none, false) :=
  ⟨rfl, rfl⟩

/-- C2 (amended): the rendered-page fallback is invoked iff stage 1 raised
(a transport or parse error) or returned a parsed 200 page whose selectors
exhaust without a numeric result; a response with any status other than 200
aborts extraction outright without the fallback, and a selector hit with a
valid number is returned without the fallback; whenever the fallback runs,
its result is the call's result. -/
theorem get_price_fallback_characterization (env : FetchEnv) (url : String) :
    ((get_price env url).2 = true ↔
      env.get url = GetOutcome.raised ∨
      (∃ parse, env.get url = GetOutcome.resp 200 parse ∧
        ∀ doc, parse = some doc → tryStrategies doc selectors = none)) ∧
    (∀ status parse, env.get url = GetOutcome.resp status parse →
      status ≠ 200 → get_price env url = (none, false)) ∧
    (∀ doc p, env.get url = GetOutcome.resp 200 (some doc) →
      tryStrategies doc selectors = some p →
      get_price env url = (some p, false)) ∧
    ((get_price env url).2 = true → (get_price env url).1 = env.selenium url) := by
  cases hg : env.get url with
  | raised =>
      have hgp : get_price env url = (env.selenium url, true) := by
        simp [get_price, hg]
      refine ⟨?_, ?_, ?_, ?_⟩
      · simp [hgp]
      · intro status parse h
        simp at h
      · intro doc p h
        simp at h
      · intro _
        simp [hgp]
  | resp status parse =>
      by_cases hst : status = 200
      · subst hst
        cases parse with
        | none =>
            have hgp : get_price env url = (env.selenium url, true) := by
              simp [get_price, hg]
            refine ⟨?_, ?_, ?_, ?_⟩
            · constructor
              · intro _
                exact Or.inr ⟨none, rfl, fun doc hd => Option.noConfusion hd⟩
              · intro _
                simp [hgp]
            · intro s pr h hne
              injection h with h1 h2
              exact absurd h1.symm hne
            · intro doc p h _
              injection h with h1 h2
              exact Option.noConfusion h2
            · intro _
              simp [hgp]
        | some doc =>
            cases htry : tryStrategies doc selectors with
            | some p0 =>
                have hgp : get_price env url = (some p0, false) := by
                  simp [get_price, hg, htry]
                refine ⟨?_, ?_, ?_, ?_⟩
                · constructor
                  · intro h
                    rw [hgp] at h
                    simp at h
                  · rintro (h | ⟨pr, heq, hall⟩)
                    · simp at h
                    · injection heq with h1 h2
                      have := hall doc h2.symm
                      rw [htry] at this
                      exact Option.noConfusion this
                · intro s pr h hne
                  injection h with h1 h2
                  exact absurd h1.symm hne
                · intro doc' p h hp
                  injection h with h1 h2
                  injection h2 with h3
                  subst h3
                  rw [htry] at hp
                  injection hp with h4
                  rw [hgp, h4]
                · intro h
                  rw [hgp] at h
                  simp at h
            | none =>
                have hgp : get_price env url = (env.selenium url, true) := by
                  simp [get_price, hg, htry]
                refine ⟨?_, ?_, ?_, ?_⟩
                · constructor
                  · intro _
                    refine Or.inr ⟨some doc, rfl, fun d hd => ?_⟩
                    injection hd with h1
                    rw [← h1]
                    exact htry
                  · intro _
                    simp [hgp]
                · intro s pr h hne
                  injection h with h1 h2
                  exact absurd h1.symm hne
                · intro doc' p h hp
                  injection h with h1 h2
                  injection h2 with h3
                  subst h3
                  rw [htry] at hp
                  exact Option.noConfusion hp
                · intro _
                  simp [hgp]
      · have hgp : get_price env url = (none, false) := by
          simp [get_price, hg, hst]
        refine ⟨?_, ?_, ?_, ?_⟩
        · constructor
          · intro h
            rw [hgp] at h
            simp at h
          · rintro (h | ⟨pr, heq, hall⟩)
            · simp at h
            · injection heq with h1 h2
              exact absurd h1 hst
        · intro s pr h hne
          exact hgp
        · intro doc p h hp
          injection h with h1 h2
          exact absurd h1 hst
        · intro h
          rw [hgp] at h
          simp at h

/-- Closed instance of the amended C2: a parsed 200 page whose first
selector reads `$19.99` yields 19.99 without invoking the fallback. -/
theorem get_price_fallback_characterization_witness :
    get_price fetchEnvOk "https://example.com/p"
        = (some (numValue ['1', '9'] ['9', '9']), false) ∧
    numValue ['1', '9'] ['9', '9'] = 1999 / 100 :=
  ⟨(get_price_fallback_characterization fetchEnvOk "https://example.com/p").2.2.1
      docFirstSel (numValue ['1', '9'] ['9', '9']) rfl rfl,
   by norm_num [numValue, digitsVal, show '1'.toNat = 49 from rfl,
        show '9'.toNat = 57 from rfl]⟩

/-! ## The normalizer's specification -/

theorem mem_stripChars {c : Char} {l : List Char} (h : c ∈ stripChars l) :
    c ∈ l :=
  List.mem_of_mem_filter h

/-- A digit-free fragment yields no match. -/
theorem findNumber_eq_none (l : List Char)
    (h : ∀ c ∈ l, c.isDigit = false) : findNumber l = none := by
  induction l with
  | nil => rfl
  | cons c rest ih =>
      have hc := h c (List.mem_cons_self c rest)
      simp [findNumber, hc]
      exact ih fun x hx => h x (List.mem_cons_of_mem c hx)

/-- The scan skips a digit-free prefix. -/
theorem findNumber_append (pre l : List Char)
    (h : ∀ c ∈ pre, c.isDigit = false) :
    findNumber (pre ++ l) = findNumber l := by
  induction pre with
  | nil => simp
  | cons c rest ih =>
      have hc := h c (List.mem_cons_self c rest)
      simp [findNumber, hc]
      exact ih fun x hx => h x (List.mem_cons_of_mem c hx)

/-- Splitting `takeWhile`/`dropWhile` at the boundary where the predicate
first fails. -/
theorem takeWhile_dropWhile_append (p : Char → Bool) (l1 l2 : List Char)
    (h1 : ∀ c ∈ l1, p c = true)
    (h2 : ∀ c r, l2 = c :: r → p c = false) :
    (l1 ++ l2).takeWhile p = l1 ∧ (l1 ++ l2).dropWhile p = l2 := by
  induction l1 with
  | nil =>
      cases hl : l2 with
      | nil => simp
      | cons c r =>
          have hc := h2 c r hl
          subst hl
          simp [List.takeWhile, List.dropWhile, hc]
  | cons c rest ih =>
      have hc := h1 c (List.mem_cons_self c rest)
      obtain ⟨iht, ihd⟩ := ih fun x hx => h1 x (List.mem_cons_of_mem c hx)
      simp [List.takeWhile, List.dropWhile, hc, iht, ihd]

/-- At a well-formed number token followed by a non-matching suffix, the
scan returns exactly the token's digit groups. -/
theorem findNumber_token (int frac suf : List Char)
    (hil : int ≠ []) (hid : ∀ c ∈ int, c.isDigit = true)
    (hfd : ∀ c ∈ frac, c.isDigit = true)
    (hs1 : ∀ c r, suf = c :: r → c.isDigit = false)
    (hs2 : frac = [] → ∀ b r, suf = '.' :: b :: r → b.isDigit = false) :
    findNumber (numToken int frac ++ suf) = some (int, frac) := by
  cases int with
  | nil => exact absurd rfl hil
  | cons d int' =>
      have hd : d.isDigit = true := hid d (List.mem_cons_self d int')
      by_cases hf : frac = []
      · subst hf
        have hsplit := takeWhile_dropWhile_append Char.isDigit (d :: int') suf
          hid hs1
        have htok : numToken (d :: int') [] ++ suf = (d :: int') ++ suf := by
          simp [numToken]
        rw [htok]
        have hscan : scanNumber ((d :: int') ++ suf) = (d :: int', []) := by
          unfold scanNumber
          rw [hsplit.1, hsplit.2]
          cases hsuf : suf with
          | nil => rfl
          | cons c r =>
              by_cases hcdot : c = '.'
              · subst hcdot
                cases hr : r with
                | nil => simp
                | cons b r' =>
                    have hb : b.isDigit = false := by
                      apply hs2 rfl b r'
                      rw [hsuf, hr]
                    simp [List.takeWhile, hb]
              · simp [hcdot]
        rw [show ((d :: int') ++ suf : List Char) = d :: (int' ++ suf) from rfl]
        unfold findNumber
        rw [hd]
        rw [show (d :: (int' ++ suf) : List Char) = (d :: int') ++ suf from rfl,
          hscan]
        simp
      · have hdot : ∀ c r, ('.' :: (frac ++ suf) : List Char) = c :: r →
            c.isDigit = false := by
          intro c r h
          cases h
          decide
        have hsplit := takeWhile_dropWhile_append Char.isDigit (d :: int')
          ('.' :: (frac ++ suf)) hid hdot
        have hfs := takeWhile_dropWhile_append Char.isDigit frac suf hfd hs1
        have htok : numToken (d :: int') frac ++ suf =
            (d :: int') ++ ('.' :: (frac ++ suf)) := by
          simp [numToken, hf]
        rw [htok]
        have hscan : scanNumber ((d :: int') ++ ('.' :: (frac ++ suf))) =
            (d :: int', frac) := by
          unfold scanNumber
          rw [hsplit.1, hsplit.2]
          simp [hfs.1, hf]
        rw [show ((d :: int') ++ ('.' :: (frac ++ suf)) : List Char) =
            d :: (int' ++ ('.' :: (frac ++ suf))) from rfl]
        unfold findNumber
        rw [hd]
        rw [show (d :: (int' ++ ('.' :: (frac ++ suf))) : List Char) =
            (d :: int') ++ ('.' :: (frac ++ suf)) from rfl, hscan]
        simp

/-- C5: the Normalizer returns the value of the first decimal number
left-to-right after the comma/currency strip — in particular, for a text
whose stripped form is a digit-free prefix, one number token, and a
non-matching suffix, it returns that token's value — and reports `none`
on digit-free text.  (It never raises: the embedding is total.) -/
theorem extract_price_normalizer (s : String) :
    ((∀ c ∈ s.data, c.isDigit = false) → extract_price s = none) ∧
    (∀ pre int frac suf : List Char,
      stripChars s.data = pre ++ numToken int frac ++ suf →
      (∀ c ∈ pre, c.isDigit = false) →
      int ≠ [] → (∀ c ∈ int, c.isDigit = true) →
      (∀ c ∈ frac, c.isDigit = true) →
      (∀ c r, suf = c :: r → c.isDigit = false) →
      (frac = [] → ∀ b r, suf = '.' :: b :: r → b.isDigit = false) →
      extract_price s = some (numValue int frac)) := by
  constructor
  · intro h
    unfold extract_price
    rw [findNumber_eq_none _ fun c hc => h c (mem_stripChars hc)]
  · intro pre int frac suf hs hpre hil hid hfd hs1 hs2
    unfold extract_price
    have hfn : findNumber (pre ++ numToken int frac ++ suf) = some (int, frac) := by
      rw [List.append_assoc,
        findNumber_append pre (numToken int frac ++ suf) hpre]
      exact findNumber_token int frac suf hil hid hfd hs1 hs2
    rw [hs, hfn]

/-- Closed instance of C5: `$1,234.56 each` normalizes to 1234.56 and a
digit-free text to `none`. -/
theorem extract_price_normalizer_witness :
    extract_price "no price found" = none ∧
    extract_price "$1,234.56 each" =
      some (numValue ['1', '2', '3', '4'] ['5', '6']) ∧
    numValue ['1', '2', '3', '4'] ['5', '6'] = 123456 / 100 := by
  refine ⟨?_, ?_, ?_⟩
  · exact (extract_price_normalizer "no price found").1 (by decide)
  · exact (extract_price_normalizer "$1,234.56 each").2 []
      ['1', '2', '3', '4'] ['5', '6'] [' ', 'e', 'a', 'c', 'h']
      (by decide) (by decide) (by decide) (by decide) (by decide)
      (by intro c r h; cases h; decide)
      (fun h => absurd h (by decide))
  · norm_num [numValue, digitsVal, show '1'.toNat = 49 from rfl,
      show '2'.toNat = 50 from rfl, show '3'.toNat = 51 from rfl,
      show '4'.toNat = 52 from rfl, show '5'.toNat = 53 from rfl,
      show '6'.toNat = 54 from rfl]

end PriceWatcher
